import Mathlib

/-!
Shallow embedding of the sustainable-shopping-planner backend
(Express + MySQL REST service).

The embedding follows the source files:
  backend/utils/db.js                  (schema: tables, UNIQUE email, FK)
  backend/controllers/userController.js    (getUser, createOrUpdateUser)
  backend/controllers/authController.js    (login, register)
  backend/controllers/behaviorController.js (logEvent, getEvents)
  backend/controllers/recommendationController.js (getRecommendations)

The database is a state value; every controller is a function from the
state and the request to the new state and the HTTP response.  MySQL's
UNIQUE KEY on `users.email` and the foreign key `fk_behavior_user` are
enforced by the modelled INSERT statements, which fail with the
corresponding driver error; each controller's catch block maps any such
error to a 500 response, exactly as in the source.
-/

/-- JSON documents, as produced by the Express JSON body parser and held in
MySQL JSON columns.  Numbers are modelled as integers. -/
inductive Json where
  | null : Json
  | bool (b : Bool) : Json
  | num (n : Int) : Json
  | str (s : String) : Json
  | arr (xs : List Json) : Json
  | obj (fields : List (String × Json)) : Json

/-- JavaScript truthiness of a JSON value (the test `v ? … : …`). -/
def Json.truthy : Json → Bool
  | .null => false
  | .bool b => b
  | .num n => n != 0
  | .str s => s != ""
  | .arr _ => true
  | .obj _ => true

/-- A row of the `users` table (db.js `initSchema`): surrogate integer id,
unique required email, optional profile columns, two timestamps. -/
structure User where
  id : Int
  email : String
  name : Option String
  country : Option String
  city : Option String
  age : Option Int
  preferences : Option Json
  created_at : Nat
  updated_at : Nat

/-- A row of the `behavior_events` table (db.js `initSchema`). -/
structure BehaviorEvent where
  id : Int
  user_id : Int
  event_type : String
  event_properties : Option Json
  occurred_at : Nat

/-- The database state: both tables, the AUTO_INCREMENT counters, and the
current clock reading used for CURRENT_TIMESTAMP defaults. -/
structure DBState where
  users : List User
  events : List BehaviorEvent
  nextUserId : Int
  nextEventId : Int
  now : Nat

/-- Errors raised by the storage layer: MySQL duplicate-key and
foreign-key-violation errors, carrying the driver message. -/
inductive DbErr where
  | dupEntry (msg : String)
  | fkViolation (msg : String)
deriving DecidableEq

/-- `err.message`, as read by the controllers' catch blocks. -/
def DbErr.message : DbErr → String
  | .dupEntry m => m
  | .fkViolation m => m

/-- JSON bodies sent by the controllers. -/
inductive Body where
  | err (error : String) (details : Option String)
  | userRow (u : User)
  | authRow (id : Int) (email : String) (name : Option String)
  | idEmail (id : Int) (email : String)
  | ack
  | events (rows : List BehaviorEvent)
  | recs (userId : Int) (behaviorSummary : List (String × Nat))
      (recommendations : List Json)
  | undef

/-- An HTTP response: status code and JSON body. -/
structure Response where
  status : Nat
  body : Body

/-! ### JavaScript primitives used by the controllers -/

/-- Drop the leading whitespace of a character list (the whitespace skip
performed by `parseInt`). -/
def skipWs : List Char → List Char
  | [] => []
  | c :: cs => if c.isWhitespace then skipWs cs else c :: cs

/-- Numeric value of a list of decimal digit characters. -/
def digitsVal (ds : List Char) : Nat :=
  ds.foldl (fun a c => a * 10 + (c.toNat - 48)) 0

/-- The longest leading run of decimal digits, `none` when it is empty
(in which case `parseInt` yields `NaN`). -/
def leadingNat (cs : List Char) : Option Nat :=
  let ds := cs.takeWhile Char.isDigit
  if ds.isEmpty then none else some (digitsVal ds)

/-- JavaScript `parseInt(s, 10)`: skip leading whitespace, read an optional
sign, then the longest leading run of decimal digits; trailing characters
are ignored.  `none` models `NaN`. -/
def jsParseInt (s : String) : Option Int :=
  match skipWs s.data with
  | [] => none
  | c :: cs =>
    if c = '-' then (leadingNat cs).map (fun n => -(n : Int))
    else if c = '+' then (leadingNat cs).map (fun n => (n : Int))
    else (leadingNat (c :: cs)).map (fun n => (n : Int))

/-- JavaScript falsiness of an optional string field (the tests `!email`,
`!event_type`): absent or empty. -/
def strFalsy : Option String → Bool
  | some s => s == ""
  | none => true

/-- JavaScript `x || null` applied to an optional string field: an absent
or empty string is coalesced to SQL NULL. -/
def strOrNull : Option String → Option String
  | some s => if s = "" then none else some s
  | none => none

/-- `Number.isFinite(age) ? age : null`: a present integer is finite and
kept; an absent field is `undefined`, which is not finite, hence NULL. -/
def ageOrNull : Option Int → Option Int
  | some a => some a
  | none => none

/-- `doc ? JSON.stringify(doc) : null`: a truthy document is serialized and
stored (the JSON column plus the driver's parse is modelled as storing the
document itself); a falsy or absent one is stored as SQL NULL. -/
def docOrNull : Option Json → Option Json
  | some p => if p.truthy then some p else none
  | none => none

/-! ### Modelled SQL statements -/

/-- `SELECT … FROM users WHERE email = ?`. -/
def selectUserByEmail (st : DBState) (email : String) : List User :=
  st.users.filter (fun u => u.email = email)

/-- `SELECT … FROM users WHERE id = ?`. -/
def selectUserById (st : DBState) (id : Int) : List User :=
  st.users.filter (fun u => u.id = id)

/-- `UPDATE users SET name=?, country=?, city=?, age=?, preferences=?
WHERE id=?`; `updated_at` is auto-touched by the column's
`ON UPDATE CURRENT_TIMESTAMP`. -/
def updateUserById (st : DBState) (id : Int) (name country city : Option String)
    (age : Option Int) (preferences : Option Json) : DBState :=
  { st with users := st.users.map (fun u =>
      if u.id = id then
        { u with name := name, country := country, city := city,
                 age := age, preferences := preferences, updated_at := st.now }
      else u) }

/-- `INSERT INTO users (email, name, country, city, age, preferences)
VALUES (…)`.  The UNIQUE KEY on `email` rejects a duplicate
(ER_DUP_ENTRY); otherwise the row is appended with the fresh
AUTO_INCREMENT id, timestamps defaulting to CURRENT_TIMESTAMP, and the
`insertId` is returned. -/
def insertUser (st : DBState) (email : String) (name country city : Option String)
    (age : Option Int) (preferences : Option Json) : Except DbErr (DBState × Int) :=
  if st.users.any (fun u => u.email = email) then
    .error (.dupEntry ("Duplicate entry " ++ email ++ " for key users.email"))
  else
    let id := st.nextUserId
    let row : User :=
      { id := id, email := email, name := name, country := country, city := city,
        age := age, preferences := preferences,
        created_at := st.now, updated_at := st.now }
    .ok ({ st with users := st.users ++ [row], nextUserId := id + 1 }, id)

/-- `INSERT INTO behavior_events (user_id, event_type, event_properties)
VALUES (…)`.  The foreign key `fk_behavior_user` rejects a `user_id` with
no matching User row; otherwise the event is appended with `occurred_at`
defaulting to CURRENT_TIMESTAMP. -/
def insertEvent (st : DBState) (userId : Int) (eventType : String)
    (props : Option Json) : Except DbErr DBState :=
  if st.users.any (fun u => u.id = userId) then
    .ok { st with
          events := st.events ++
            [{ id := st.nextEventId, user_id := userId, event_type := eventType,
               event_properties := props, occurred_at := st.now }],
          nextEventId := st.nextEventId + 1 }
  else
    .error (.fkViolation
      "Cannot add or update a child row: a foreign key constraint fails (fk_behavior_user)")

/-! ### Controllers -/

/-- `userController.getUser` (GET /api/users/:id). -/
def getUser (st : DBState) (idParam : String) : DBState × Response :=
  match jsParseInt idParam with
  | none => (st, ⟨400, .err "Invalid user id" none⟩)
  | some userId =>
    match selectUserById st userId with
    | [] => (st, ⟨404, .err "User not found" none⟩)
    | row :: _ => (st, ⟨200, .userRow row⟩)

/-- `userController.createOrUpdateUser` (POST /api/users), with the two
database phases made explicit: the lookup `SELECT id FROM users WHERE
email = ?` reads `stAtLookup`, while the write and the re-select run
against `stAtWrite`.  For an isolated request the two states coincide
(`createOrUpdateUser` below); they differ when a concurrent request
commits between the two statements. -/
def createOrUpdateUserAt (stAtLookup stAtWrite : DBState) (req_email req_name
    req_country req_city : Option String) (req_age : Option Int)
    (req_preferences : Option Json) : DBState × Response :=
  if strFalsy req_email then (stAtWrite, ⟨400, .err "email is required" none⟩)
  else
    let email := req_email.getD ""
    match selectUserByEmail stAtLookup email with
    | existing :: _ =>
      let st2 := updateUserById stAtWrite existing.id (strOrNull req_name)
        (strOrNull req_country) (strOrNull req_city) (ageOrNull req_age)
        (docOrNull req_preferences)
      match selectUserById st2 existing.id with
      | row :: _ => (st2, ⟨200, .userRow row⟩)
      | [] => (st2, ⟨200, .undef⟩)
    | [] =>
      match insertUser stAtWrite email (strOrNull req_name) (strOrNull req_country)
        (strOrNull req_city) (ageOrNull req_age) (docOrNull req_preferences) with
      | .error e => (stAtWrite, ⟨500, .err "Failed to upsert user" (some e.message)⟩)
      | .ok (st2, newId) =>
        match selectUserById st2 newId with
        | row :: _ => (st2, ⟨201, .userRow row⟩)
        | [] => (st2, ⟨201, .undef⟩)

/-- `userController.createOrUpdateUser` (POST /api/users) as executed by an
isolated request: both phases see the same state. -/
def createOrUpdateUser (st : DBState) (req_email req_name req_country
    req_city : Option String) (req_age : Option Int)
    (req_preferences : Option Json) : DBState × Response :=
  createOrUpdateUserAt st st req_email req_name req_country req_city req_age
    req_preferences

/-- `authController.login` (POST /api/auth/login). -/
def login (st : DBState) (req_email : Option String) : DBState × Response :=
  if strFalsy req_email then (st, ⟨400, .err "email is required" none⟩)
  else
    match selectUserByEmail st (req_email.getD "") with
    | [] => (st, ⟨404, .err "User not found" none⟩)
    | row :: _ => (st, ⟨200, .idEmail row.id row.email⟩)

/-- `authController.register` (POST /api/auth/register). -/
def register (st : DBState) (req_email req_name : Option String) :
    DBState × Response :=
  if strFalsy req_email then (st, ⟨400, .err "email is required" none⟩)
  else
    let email := req_email.getD ""
    match selectUserByEmail st email with
    | _ :: _ => (st, ⟨409, .err "User already exists" none⟩)
    | [] =>
      match insertUser st email (strOrNull req_name) none none none none with
      | .error e => (st, ⟨500, .err "Register failed" (some e.message)⟩)
      | .ok (st2, newId) =>
        match selectUserById st2 newId with
        | row :: _ => (st2, ⟨201, .authRow row.id row.email row.name⟩)
        | [] => (st2, ⟨201, .undef⟩)

/-- `behaviorController.logEvent` (POST /api/behavior/:userId). -/
def logEvent (st : DBState) (userIdParam : String) (event_type : Option String)
    (event_properties : Option Json) : DBState × Response :=
  match jsParseInt userIdParam with
  | none => (st, ⟨400, .err "Invalid user id" none⟩)
  | some userId =>
    if strFalsy event_type then (st, ⟨400, .err "event_type is required" none⟩)
    else
      match insertEvent st userId (event_type.getD "")
        (docOrNull event_properties) with
      | .error e => (st, ⟨500, .err "Failed to log event" (some e.message)⟩)
      | .ok st2 => (st2, ⟨201, .ack⟩)

/-- The comparison realised by `ORDER BY occurred_at DESC`: newest first. -/
def newerFirst (a b : BehaviorEvent) : Prop :=
  b.occurred_at ≤ a.occurred_at

instance : DecidableRel newerFirst := fun a b =>
  Nat.decLe b.occurred_at a.occurred_at

instance : IsTotal BehaviorEvent newerFirst :=
  ⟨fun a b => Nat.le_total b.occurred_at a.occurred_at⟩

instance : IsTrans BehaviorEvent newerFirst :=
  ⟨fun _ _ _ h1 h2 => Nat.le_trans h2 h1⟩

/-- `SELECT * FROM behavior_events WHERE user_id = ? [AND event_type = ?]
ORDER BY occurred_at DESC LIMIT ?`. -/
def selectEvents (st : DBState) (userId : Int) (eventTypeFilter : Option String)
    (limit : Nat) : List BehaviorEvent :=
  let base := st.events.filter (fun e => e.user_id = userId)
  let filtered := match eventTypeFilter with
    | some t => base.filter (fun e => e.event_type = t)
    | none => base
  (List.insertionSort newerFirst filtered).take limit

/-- `behaviorController.getEvents` (GET /api/behavior/:userId).  The query
string may carry `event_type` and `limit`; `limit` defaults to 100, and a
falsy (absent or empty) `event_type` selects the unfiltered query. -/
def getEvents (st : DBState) (userIdParam : String) (event_type : Option String)
    (limit : Option Nat) : DBState × Response :=
  match jsParseInt userIdParam with
  | none => (st, ⟨400, .err "Invalid user id" none⟩)
  | some userId =>
    let lim := limit.getD 100
    let filt := if strFalsy event_type then none else event_type
    (st, ⟨200, .events (selectEvents st userId filt lim)⟩)

/-- The comparison realised by `ORDER BY count DESC` in the aggregation. -/
def countDesc (p q : String × Nat) : Prop :=
  q.2 ≤ p.2

instance : DecidableRel countDesc := fun p q => Nat.decLe q.2 p.2

instance : IsTotal (String × Nat) countDesc :=
  ⟨fun p q => Nat.le_total q.2 p.2⟩

instance : IsTrans (String × Nat) countDesc :=
  ⟨fun _ _ _ h1 h2 => Nat.le_trans h2 h1⟩

/-- `SELECT event_type, COUNT(*) as count FROM behavior_events
WHERE user_id = ? GROUP BY event_type ORDER BY count DESC`. -/
def summarizeQuery (st : DBState) (userId : Int) : List (String × Nat) :=
  let evs := st.events.filter (fun e => e.user_id = userId)
  let types := (evs.map (fun e => e.event_type)).dedup
  List.insertionSort countDesc
    (types.map (fun t => (t, (evs.filter (fun e => e.event_type = t)).length)))

/-- `recommendationController.getRecommendations`
(GET /api/recommendations/:userId).  The recommendation list is the
literal empty array in the source. -/
def getRecommendations (st : DBState) (userIdParam : String) :
    DBState × Response :=
  match jsParseInt userIdParam with
  | none => (st, ⟨400, .err "Invalid user id" none⟩)
  | some userId =>
    (st, ⟨200, .recs userId (summarizeQuery st userId) []⟩)

/-! ### Invariants of reachable database states -/

/-- UNIQUE KEY on `users.email`: at most one User row per email. -/
def uniqueEmails (st : DBState) : Prop :=
  st.users.Pairwise (fun u v => u.email ≠ v.email)

/-- PRIMARY KEY on `users.id`: ids are pairwise distinct. -/
def uniqueIds (st : DBState) : Prop :=
  st.users.Pairwise (fun u v => u.id ≠ v.id)

/-- AUTO_INCREMENT discipline: every existing id is below the counter. -/
def idsBounded (st : DBState) : Prop :=
  ∀ u ∈ st.users, u.id < st.nextUserId

/-- The foreign key `fk_behavior_user`: every event references a User. -/
def fkOk (st : DBState) : Prop :=
  ∀ e ∈ st.events, ∃ u ∈ st.users, u.id = e.user_id

/-- Every stored event timestamp precedes the current clock reading. -/
def timesPast (st : DBState) : Prop :=
  ∀ e ∈ st.events, e.occurred_at < st.now

/-- Spec-side notion used by the claims: a path parameter that is a
well-formed decimal integer, an optional sign followed by digits only. -/
def isIntegerString (s : String) : Bool :=
  match s.data with
  | [] => false
  | c :: cs =>
    if c = '-' || c = '+' then !cs.isEmpty && cs.all Char.isDigit
    else (c :: cs).all Char.isDigit

/-! ### Helper lemmas shared by the claim proofs -/

theorem filter_id_singleton {l : List User}
    (hpw : l.Pairwise (fun a b => a.id ≠ b.id)) {u : User} (hu : u ∈ l) :
    l.filter (fun v => v.id = u.id) = [u] := by
  induction l with
  | nil => cases hu
  | cons h t ih =>
    rcases List.pairwise_cons.mp hpw with ⟨hh, ht⟩
    rcases List.mem_cons.mp hu with rfl | hut
    · have hnil : t.filter (fun v => v.id = u.id) = [] :=
        List.filter_eq_nil_iff.mpr (fun b hb => by simpa using (hh b hb).symm)
      simp [List.filter_cons, hnil]
    · have hne : ¬(h.id = u.id) := hh u hut
      simp [List.filter_cons, hne, ih ht hut]

theorem filter_append_fresh (l : List User) (bound : Int)
    (hb : ∀ u ∈ l, u.id < bound) (row : User) (hrow : row.id = bound) :
    (l ++ [row]).filter (fun v => v.id = bound) = [row] := by
  rw [List.filter_append]
  have h1 : l.filter (fun v => v.id = bound) = [] :=
    List.filter_eq_nil_iff.mpr (fun u hu => by simpa using Int.ne_of_lt (hb u hu))
  simp [h1, List.filter_cons, hrow]

/-- The row written by the UPDATE branch of the upsert: every mutable
column replaced by the (coalesced) request field, id/email/created_at
kept, `updated_at` touched. -/
def replacedUser (st : DBState) (u : User) (n c ci : Option String)
    (a : Option Int) (p : Option Json) : User :=
  { u with name := strOrNull n, country := strOrNull c, city := strOrNull ci,
           age := ageOrNull a, preferences := docOrNull p, updated_at := st.now }

/-- The row written by the INSERT branch of the upsert. -/
def insertedUser (st : DBState) (email : String) (n c ci : Option String)
    (a : Option Int) (p : Option Json) : User :=
  { id := st.nextUserId, email := email, name := strOrNull n,
    country := strOrNull c, city := strOrNull ci, age := ageOrNull a,
    preferences := docOrNull p, created_at := st.now, updated_at := st.now }

/-- The row written by register's INSERT. -/
def registeredUser (st : DBState) (email : String) (name : Option String) : User :=
  { id := st.nextUserId, email := email, name := strOrNull name, country := none,
    city := none, age := none, preferences := none,
    created_at := st.now, updated_at := st.now }

theorem selectUserById_update (st : DBState) (hids : uniqueIds st)
    {u : User} (hmem : u ∈ st.users) (n c ci : Option String) (a : Option Int)
    (p : Option Json) :
    selectUserById (updateUserById st u.id (strOrNull n) (strOrNull c)
        (strOrNull ci) (ageOrNull a) (docOrNull p)) u.id
      = [replacedUser st u n c ci a p] := by
  unfold selectUserById updateUserById
  rw [List.filter_map]
  have hpred : ((fun v : User => decide (v.id = u.id)) ∘ (fun v : User =>
      if v.id = u.id then
        { v with name := strOrNull n, country := strOrNull c, city := strOrNull ci,
                 age := ageOrNull a, preferences := docOrNull p,
                 updated_at := st.now }
      else v)) = fun v : User => decide (v.id = u.id) := by
    funext v
    by_cases h : v.id = u.id <;> simp [h]
  rw [hpred, filter_id_singleton hids hmem]
  simp [replacedUser]

theorem upsert_found (st : DBState) (email : String) (hne : email ≠ "")
    (n c ci : Option String) (a : Option Int) (p : Option Json)
    {u : User} {rest : List User}
    (hsel : selectUserByEmail st email = u :: rest) (hids : uniqueIds st) :
    createOrUpdateUser st (some email) n c ci a p =
      (updateUserById st u.id (strOrNull n) (strOrNull c) (strOrNull ci)
        (ageOrNull a) (docOrNull p),
       ⟨200, .userRow (replacedUser st u n c ci a p)⟩) := by
  have hmem : u ∈ st.users := by
    have hu : u ∈ selectUserByEmail st email := by
      rw [hsel]; exact List.mem_cons_self u rest
    exact (List.mem_filter.mp hu).1
  have hsel2 := selectUserById_update st hids hmem n c ci a p
  unfold createOrUpdateUser createOrUpdateUserAt
  rw [if_neg (by simp [strFalsy, hne])]
  simp only [Option.getD_some, hsel, hsel2]

theorem upsert_notfound (st : DBState) (email : String) (hne : email ≠ "")
    (n c ci : Option String) (a : Option Int) (p : Option Json)
    (hsel : selectUserByEmail st email = []) (hids : idsBounded st) :
    createOrUpdateUser st (some email) n c ci a p =
      ({ st with users := st.users ++ [insertedUser st email n c ci a p],
                 nextUserId := st.nextUserId + 1 },
       ⟨201, .userRow (insertedUser st email n c ci a p)⟩) := by
  have hnone : st.users.any (fun u => u.email = email) = false :=
    List.any_eq_false.mpr (List.filter_eq_nil_iff.mp hsel)
  have hfresh : (st.users ++ [insertedUser st email n c ci a p]).filter
      (fun v => v.id = st.nextUserId) = [insertedUser st email n c ci a p] :=
    filter_append_fresh st.users st.nextUserId hids _ rfl
  unfold createOrUpdateUser createOrUpdateUserAt
  rw [if_neg (by simp [strFalsy, hne])]
  simp only [Option.getD_some, hsel]
  unfold insertUser
  rw [if_neg (by simp [hnone])]
  simp only [insertedUser] at hfresh ⊢
  simp only [selectUserById, hfresh]

theorem register_conflict (st : DBState) (email : String) (hne : email ≠ "")
    (name : Option String) {u : User} {rest : List User}
    (hsel : selectUserByEmail st email = u :: rest) :
    register st (some email) name = (st, ⟨409, .err "User already exists" none⟩) := by
  unfold register
  rw [if_neg (by simp [strFalsy, hne])]
  simp only [Option.getD_some, hsel]

theorem register_new (st : DBState) (email : String) (hne : email ≠ "")
    (name : Option String) (hsel : selectUserByEmail st email = [])
    (hids : idsBounded st) :
    register st (some email) name =
      ({ st with users := st.users ++ [registeredUser st email name],
                 nextUserId := st.nextUserId + 1 },
       ⟨201, .authRow st.nextUserId email (strOrNull name)⟩) := by
  have hnone : st.users.any (fun u => u.email = email) = false :=
    List.any_eq_false.mpr (List.filter_eq_nil_iff.mp hsel)
  have hfresh : (st.users ++ [registeredUser st email name]).filter
      (fun v => v.id = st.nextUserId) = [registeredUser st email name] :=
    filter_append_fresh st.users st.nextUserId hids _ rfl
  unfold register
  rw [if_neg (by simp [strFalsy, hne])]
  simp only [Option.getD_some, hsel]
  unfold insertUser
  rw [if_neg (by simp [hnone])]
  simp only [registeredUser] at hfresh ⊢
  simp only [selectUserById, hfresh]


theorem not_ws_of_digit {c : Char} (h : c.isDigit = true) :
    c.isWhitespace = false := by
  have h1 : c ≠ ' ' := fun e => by subst e; exact absurd h (by decide)
  have h2 : c ≠ '\t' := fun e => by subst e; exact absurd h (by decide)
  have h3 : c ≠ '\r' := fun e => by subst e; exact absurd h (by decide)
  have h4 : c ≠ '\n' := fun e => by subst e; exact absurd h (by decide)
  simp [Char.isWhitespace, h1, h2, h3, h4]

theorem leadingNat_all_digits {cs : List Char} (hne : cs ≠ [])
    (hall : ∀ x ∈ cs, x.isDigit = true) :
    leadingNat cs = some (digitsVal cs) := by
  unfold leadingNat
  rw [List.takeWhile_eq_self_iff.mpr hall,
    if_neg (fun hcontra => hne (List.isEmpty_iff.mp hcontra))]

/-- A well-formed integer path parameter is parsed by `parseInt` (to some
integer, never `NaN`). -/
theorem jsParseInt_isSome_of_integerString (p : String)
    (h : isIntegerString p = true) : jsParseInt p ≠ none := by
  rcases hd : p.data with _ | ⟨c, cs⟩ <;> simp only [isIntegerString, hd] at h
  · exact absurd h (by decide)
  · by_cases hs : (c = '-' || c = '+') = true
    · rw [if_pos hs] at h
      rcases Bool.and_eq_true_iff.mp h with ⟨hne', hall⟩
      have hne2 : cs ≠ [] := by
        intro hnil; subst hnil; exact absurd hne' (by decide)
      have hlead := leadingNat_all_digits hne2 (List.all_eq_true.mp hall)
      rcases Bool.or_eq_true_iff.mp hs with h1 | h1 <;>
        rw [decide_eq_true_eq] at h1 <;> subst h1 <;>
        simp [jsParseInt, hd, skipWs, hlead]
    · rw [if_neg hs] at h
      have hall' : ∀ x ∈ c :: cs, x.isDigit = true := List.all_eq_true.mp h
      have hcd := hall' c (List.mem_cons_self c cs)
      have hws := not_ws_of_digit hcd
      have hlead := leadingNat_all_digits (List.cons_ne_nil c cs) hall'
      have hsp : ¬(c = '-') ∧ ¬(c = '+') := by
        constructor <;> intro h1 <;> subst h1 <;> exact absurd hcd (by decide)
      simp [jsParseInt, hd, skipWs, hws, hlead, hsp.1, hsp.2]

theorem getUser_state (st : DBState) (p : String) : (getUser st p).1 = st := by
  unfold getUser
  split
  · rfl
  · split <;> rfl

theorem login_state (st : DBState) (e : Option String) : (login st e).1 = st := by
  unfold login
  split
  · rfl
  · split <;> rfl

theorem upsert_found_state (st : DBState) (email : String) (hne : email ≠ "")
    (n c ci : Option String) (a : Option Int) (p : Option Json)
    {u : User} {rest : List User}
    (hsel : selectUserByEmail st email = u :: rest) :
    (createOrUpdateUser st (some email) n c ci a p).1 =
      updateUserById st u.id (strOrNull n) (strOrNull c) (strOrNull ci)
        (ageOrNull a) (docOrNull p) := by
  unfold createOrUpdateUser createOrUpdateUserAt
  rw [if_neg (by simp [strFalsy, hne])]
  simp only [Option.getD_some, hsel]
  split <;> rfl

theorem upsert_notfound_state (st : DBState) (email : String) (hne : email ≠ "")
    (n c ci : Option String) (a : Option Int) (p : Option Json)
    (hsel : selectUserByEmail st email = []) :
    (createOrUpdateUser st (some email) n c ci a p).1 =
      { st with users := st.users ++ [insertedUser st email n c ci a p],
                nextUserId := st.nextUserId + 1 } := by
  have hnone : st.users.any (fun u => u.email = email) = false :=
    List.any_eq_false.mpr (List.filter_eq_nil_iff.mp hsel)
  unfold createOrUpdateUser createOrUpdateUserAt
  rw [if_neg (by simp [strFalsy, hne])]
  simp only [Option.getD_some, hsel]
  unfold insertUser
  rw [if_neg (by simp [hnone])]
  simp only [insertedUser]
  split <;> rfl

theorem register_new_state (st : DBState) (email : String) (hne : email ≠ "")
    (name : Option String) (hsel : selectUserByEmail st email = []) :
    (register st (some email) name).1 =
      { st with users := st.users ++ [registeredUser st email name],
                nextUserId := st.nextUserId + 1 } := by
  have hnone : st.users.any (fun u => u.email = email) = false :=
    List.any_eq_false.mpr (List.filter_eq_nil_iff.mp hsel)
  unfold register
  rw [if_neg (by simp [strFalsy, hne])]
  simp only [Option.getD_some, hsel]
  unfold insertUser
  rw [if_neg (by simp [hnone])]
  simp only [registeredUser]
  split <;> rfl

theorem uniqueEmails_update (st : DBState) (hu : uniqueEmails st) (id : Int)
    (n c ci : Option String) (a : Option Int) (p : Option Json) :
    uniqueEmails (updateUserById st id n c ci a p) := by
  unfold uniqueEmails updateUserById at *
  rw [List.pairwise_map]
  refine hu.imp ?_
  intro x y hxy
  by_cases hx : x.id = id <;> by_cases hy : y.id = id <;> simp [hx, hy, hxy]

theorem uniqueEmails_append (st : DBState) (hu : uniqueEmails st) (row : User)
    (hnew : ∀ v ∈ st.users, v.email ≠ row.email) :
    List.Pairwise (fun u v => u.email ≠ v.email) (st.users ++ [row]) := by
  rw [List.pairwise_append]
  refine ⟨hu, List.pairwise_singleton _ _, ?_⟩
  intro a ha b hb
  have hb' : b = row := by simpa using hb
  subst hb'
  exact hnew a ha

/-- C1: `createOrUpdateUser` (POST /api/users) is a full replace keyed on
email.  When the request email matches an existing User row, every mutable
field (name, country, city, age, preferences) is overwritten with the
coalesced request value — fields omitted or invalid in the request become
null — the row keeps its id and email, the table size is unchanged, every
other row is untouched, and the updated row is returned; when no User has
that email, a row with the fresh surrogate id (distinct from every
existing id) is inserted and returned. -/
theorem upsertByEmail_full_replace (st : DBState) (email : String)
    (hne : email ≠ "") (n c ci : Option String) (a : Option Int)
    (p : Option Json) (hids : uniqueIds st) (hbound : idsBounded st) :
    (∀ u rest, selectUserByEmail st email = u :: rest →
      (createOrUpdateUser st (some email) n c ci a p).2 =
        ⟨200, .userRow (replacedUser st u n c ci a p)⟩ ∧
      (replacedUser st u n c ci a p).id = u.id ∧
      (replacedUser st u n c ci a p).email = u.email ∧
      (replacedUser st u n c ci a p).name = strOrNull n ∧
      (replacedUser st u n c ci a p).country = strOrNull c ∧
      (replacedUser st u n c ci a p).city = strOrNull ci ∧
      (replacedUser st u n c ci a p).age = ageOrNull a ∧
      (replacedUser st u n c ci a p).preferences = docOrNull p ∧
      (createOrUpdateUser st (some email) n c ci a p).1.users.length =
        st.users.length ∧
      replacedUser st u n c ci a p ∈
        (createOrUpdateUser st (some email) n c ci a p).1.users ∧
      (∀ v ∈ st.users, v.id ≠ u.id →
        v ∈ (createOrUpdateUser st (some email) n c ci a p).1.users)) ∧
    (selectUserByEmail st email = [] →
      (createOrUpdateUser st (some email) n c ci a p).2 =
        ⟨201, .userRow (insertedUser st email n c ci a p)⟩ ∧
      (createOrUpdateUser st (some email) n c ci a p).1.users =
        st.users ++ [insertedUser st email n c ci a p] ∧
      (∀ v ∈ st.users, v.id ≠ (insertedUser st email n c ci a p).id)) := by
  constructor
  · intro u rest hsel
    have hmem : u ∈ st.users := by
      have hu2 : u ∈ selectUserByEmail st email := by
        rw [hsel]; exact List.mem_cons_self u rest
      exact (List.mem_filter.mp hu2).1
    have hfound := upsert_found st email hne n c ci a p hsel hids
    refine ⟨by rw [hfound], rfl, rfl, rfl, rfl, rfl, rfl, rfl, ?_, ?_, ?_⟩
    · rw [hfound]
      simp [updateUserById]
    · rw [hfound]
      simp only [updateUserById]
      refine List.mem_map.mpr ⟨u, hmem, ?_⟩
      simp [replacedUser]
    · intro v hv hvne
      rw [hfound]
      simp only [updateUserById]
      refine List.mem_map.mpr ⟨v, hv, ?_⟩
      simp [hvne]
  · intro hsel
    have hnf := upsert_notfound st email hne n c ci a p hsel hbound
    refine ⟨by rw [hnf], by rw [hnf], ?_⟩
    intro v hv
    exact Int.ne_of_lt (hbound v hv)

/-- Concrete one-user state for the C1 witness. -/
def uW1 : User :=
  { id := 1, email := "a@b.c", name := some "Old", country := some "LK",
    city := some "Colombo", age := some 20, preferences := none,
    created_at := 0, updated_at := 0 }

def stW1 : DBState :=
  { users := [uW1], events := [], nextUserId := 2, nextEventId := 1, now := 7 }

/-- C1 witness: applying the theorem at a concrete state, both branches. -/
theorem upsertByEmail_full_replace_witness :
    (createOrUpdateUser stW1 (some "a@b.c") (some "New") none none none none).2 =
      ⟨200, .userRow (replacedUser stW1 uW1 (some "New") none none none none)⟩ ∧
    (createOrUpdateUser stW1 (some "x@y.z") none none none none none).2 =
      ⟨201, .userRow (insertedUser stW1 "x@y.z" none none none none none)⟩ := by
  have hids : uniqueIds stW1 := by
    simp [uniqueIds, stW1]
  have hbound : idsBounded stW1 := by
    intro u hu
    simp [stW1] at hu
    subst hu
    decide
  have h1 := (upsertByEmail_full_replace stW1 "a@b.c" (by decide) (some "New")
    none none none none hids hbound).1 uW1 [] rfl
  have h2 := (upsertByEmail_full_replace stW1 "x@y.z" (by decide) none
    none none none none hids hbound).2 rfl
  exact ⟨h1.1, h2.1⟩

/-- Empty database state, as right after `initSchema` on a fresh database. -/
def stEmptyC9 : DBState :=
  { users := [], events := [], nextUserId := 1, nextEventId := 1, now := 0 }

/-- C9 counterexample: the claim says getUser fails 400 if and only if the
id parameter is not a well-formed integer, but "3.5" is not a well-formed
integer and GET /api/users/3.5 does not return 400 — `parseInt` reads the
prefix 3 and the request 404s on the empty database. -/
theorem getUser_wellformed_400_cex :
    isIntegerString "3.5" = false ∧
    (getUser stEmptyC9 "3.5").2.status = 404 ∧ (404 : Nat) ≠ 400 :=
  ⟨rfl, rfl, by decide⟩

/-- C9 (amended): getUser fails 400 iff `parseInt` of the id parameter is
NaN (there is no leading integer); for a parameter that parses to id, it
404s iff no User row has that id and otherwise returns 200 with the full
row; every well-formed integer parameter does parse. -/
theorem getUser_status_contract (st : DBState) (p : String) :
    ((getUser st p).2.status = 400 ↔ jsParseInt p = none) ∧
    (∀ id, jsParseInt p = some id →
      (((getUser st p).2.status = 404 ↔ selectUserById st id = []) ∧
       (∀ u rest, selectUserById st id = u :: rest →
          getUser st p = (st, ⟨200, .userRow u⟩)))) ∧
    (isIntegerString p = true → jsParseInt p ≠ none) := by
  refine ⟨?_, ?_, jsParseInt_isSome_of_integerString p⟩
  · rcases hp : jsParseInt p with _ | id
    · have hEq : getUser st p = (st, ⟨400, .err "Invalid user id" none⟩) := by
        unfold getUser; simp only [hp]
      simp [hEq]
    · rcases hs : selectUserById st id with _ | ⟨u, rest⟩
      · have hEq : getUser st p = (st, ⟨404, .err "User not found" none⟩) := by
          unfold getUser; simp only [hp, hs]
        simp [hEq, hp]
      · have hEq : getUser st p = (st, ⟨200, .userRow u⟩) := by
          unfold getUser; simp only [hp, hs]
        simp [hEq, hp]
  · intro id hp
    rcases hs : selectUserById st id with _ | ⟨u, rest⟩
    · have hEq : getUser st p = (st, ⟨404, .err "User not found" none⟩) := by
        unfold getUser; simp only [hp, hs]
      refine ⟨by simp [hEq, hs], ?_⟩
      intro u' rest' h
      exact absurd h (by simp)
    · have hEq : getUser st p = (st, ⟨200, .userRow u⟩) := by
        unfold getUser; simp only [hp, hs]
      refine ⟨by simp [hEq, hs], ?_⟩
      intro u' rest' h
      have hu : u = u' := ((List.cons.injEq _ _ _ _).mp h).1
      subst hu
      exact hEq

/-- One-user state for the C9 witness. -/
def uC9 : User :=
  { id := 1, email := "c9@x.y", name := none, country := none, city := none,
    age := none, preferences := none, created_at := 0, updated_at := 0 }

def stC9 : DBState :=
  { users := [uC9], events := [], nextUserId := 2, nextEventId := 1, now := 0 }

/-- C9 witness: the amended contract applied at concrete inputs. -/
theorem getUser_status_contract_witness :
    ((getUser stC9 "abc").2.status = 400 ↔ jsParseInt "abc" = none) ∧
    getUser stC9 "1" = (stC9, ⟨200, .userRow uC9⟩) ∧
    ((getUser stC9 "999999").2.status = 404 ↔ selectUserById stC9 999999 = []) := by
  refine ⟨(getUser_status_contract stC9 "abc").1, ?_, ?_⟩
  · exact (((getUser_status_contract stC9 "1").2.1 1 rfl).2 uC9 [] rfl)
  · exact ((getUser_status_contract stC9 "999999").2.1 999999 rfl).1

/-- C7: register (POST /api/auth/register) returns 201 with the id, email
and name of a freshly inserted row when the email does not already exist,
fails with Conflict (409) when a User with that email exists, fails with
InvalidInput (400) when the email is missing (or empty), and never
mutates an existing row. -/
theorem register_contract (st : DBState) (hbound : idsBounded st)
    (e n : Option String) :
    (strFalsy e = true →
      register st e n = (st, ⟨400, .err "email is required" none⟩)) ∧
    (∀ email, e = some email → email ≠ "" →
      ((∃ u ∈ st.users, u.email = email) →
        register st e n = (st, ⟨409, .err "User already exists" none⟩)) ∧
      ((¬∃ u ∈ st.users, u.email = email) →
        (register st e n).2 = ⟨201, .authRow st.nextUserId email (strOrNull n)⟩ ∧
        (register st e n).1.users = st.users ++ [registeredUser st email n])) ∧
    (∀ u ∈ st.users, u ∈ (register st e n).1.users) := by
  refine ⟨?_, ?_, ?_⟩
  · intro hf
    unfold register
    rw [if_pos (by simp [hf])]
  · rintro email rfl hne
    constructor
    · rintro ⟨u, hu, hue⟩
      rcases hsel : selectUserByEmail st email with _ | ⟨v, rest⟩
      · exact absurd (by simpa using hue)
          (by simpa using List.filter_eq_nil_iff.mp hsel u hu)
      · exact register_conflict st email hne _ hsel
    · intro hnone
      have hsel : selectUserByEmail st email = [] := by
        rcases hsel : selectUserByEmail st email with _ | ⟨v, rest⟩
        · rfl
        · exfalso
          have hv : v ∈ selectUserByEmail st email := by
            rw [hsel]; exact List.mem_cons_self v rest
          rcases List.mem_filter.mp hv with ⟨hvm, hve⟩
          exact hnone ⟨v, hvm, by simpa using hve⟩
      rw [register_new st email hne n hsel hbound]
      exact ⟨rfl, rfl⟩
  · intro u hu
    rcases e with _ | email
    · have h0 : register st none n = (st, ⟨400, .err "email is required" none⟩) := by
        unfold register; rfl
      rw [h0]; exact hu
    · by_cases hne : email = ""
      · subst hne
        have h0 : register st (some "") n =
            (st, ⟨400, .err "email is required" none⟩) := by
          unfold register; rfl
        rw [h0]; exact hu
      · rcases hsel : selectUserByEmail st email with _ | ⟨v, rest⟩
        · rw [register_new_state st email hne n hsel]
          exact List.mem_append_left _ hu
        · rw [register_conflict st email hne n hsel]
          exact hu

/-- One-user state for the C7 witness. -/
def uC7 : User :=
  { id := 1, email := "c7@x.y", name := some "Cee", country := none,
    city := none, age := none, preferences := none,
    created_at := 0, updated_at := 0 }

def stC7 : DBState :=
  { users := [uC7], events := [], nextUserId := 2, nextEventId := 1, now := 3 }

/-- C7 witness: the register contract applied at a concrete state, hitting
the 409, 201 and 400 branches. -/
theorem register_contract_witness :
    register stC7 (some "c7@x.y") none =
      (stC7, ⟨409, .err "User already exists" none⟩) ∧
    (register stC7 (some "n7@x.y") (some "Nina")).2 =
      ⟨201, .authRow 2 "n7@x.y" (some "Nina")⟩ ∧
    register stC7 none none = (stC7, ⟨400, .err "email is required" none⟩) := by
  have hbound : idsBounded stC7 := by
    intro u hu
    simp [stC7] at hu
    subst hu
    decide
  refine ⟨?_, ?_, ?_⟩
  · exact ((register_contract stC7 hbound (some "c7@x.y") none).2.1 "c7@x.y"
      rfl (by decide)).1 ⟨uC7, by simp [stC7], rfl⟩
  · exact (((register_contract stC7 hbound (some "n7@x.y") (some "Nina")).2.1
      "n7@x.y" rfl (by decide)).2 (by decide)).1
  · exact (register_contract stC7 hbound none none).1 rfl

/-- C6: every User Store operation (upsert, register, getById, findByEmail
via login) preserves the invariant that at most one User row exists per
email. -/
theorem unique_email_invariant (st : DBState) (hu : uniqueEmails st) :
    (∀ e n c ci a p, uniqueEmails (createOrUpdateUser st e n c ci a p).1) ∧
    (∀ e n, uniqueEmails (register st e n).1) ∧
    (∀ idp, uniqueEmails (getUser st idp).1) ∧
    (∀ e, uniqueEmails (login st e).1) := by
  refine ⟨?_, ?_, ?_, ?_⟩
  · intro e n c ci a p
    rcases e with _ | email
    · have h0 : createOrUpdateUser st none n c ci a p =
          (st, ⟨400, .err "email is required" none⟩) := by
        unfold createOrUpdateUser createOrUpdateUserAt; rfl
      rw [h0]; exact hu
    · by_cases hne : email = ""
      · subst hne
        have h0 : createOrUpdateUser st (some "") n c ci a p =
            (st, ⟨400, .err "email is required" none⟩) := by
          unfold createOrUpdateUser createOrUpdateUserAt; rfl
        rw [h0]; exact hu
      · rcases hsel : selectUserByEmail st email with _ | ⟨u, rest⟩
        · rw [upsert_notfound_state st email hne n c ci a p hsel]
          have hnew : ∀ v ∈ st.users,
              v.email ≠ (insertedUser st email n c ci a p).email := by
            intro v hv
            have hne' := List.filter_eq_nil_iff.mp hsel v hv
            simpa [insertedUser] using hne'
          exact uniqueEmails_append st hu _ hnew
        · rw [upsert_found_state st email hne n c ci a p hsel]
          exact uniqueEmails_update st hu _ _ _ _ _ _
  · intro e n
    rcases e with _ | email
    · have h0 : register st none n = (st, ⟨400, .err "email is required" none⟩) := by
        unfold register; rfl
      rw [h0]; exact hu
    · by_cases hne : email = ""
      · subst hne
        have h0 : register st (some "") n =
            (st, ⟨400, .err "email is required" none⟩) := by
          unfold register; rfl
        rw [h0]; exact hu
      · rcases hsel : selectUserByEmail st email with _ | ⟨u, rest⟩
        · rw [register_new_state st email hne n hsel]
          have hnew : ∀ v ∈ st.users,
              v.email ≠ (registeredUser st email n).email := by
            intro v hv
            have hne' := List.filter_eq_nil_iff.mp hsel v hv
            simpa [registeredUser] using hne'
          exact uniqueEmails_append st hu _ hnew
        · rw [register_conflict st email hne n hsel]
          exact hu
  · intro idp; rw [getUser_state]; exact hu
  · intro e; rw [login_state]; exact hu

/-- Two-user state for the C6 witness. -/
def stC6 : DBState :=
  { users := [{ id := 1, email := "a6@x.y", name := none, country := none,
                city := none, age := none, preferences := none,
                created_at := 0, updated_at := 0 },
              { id := 2, email := "b6@x.y", name := none, country := none,
                city := none, age := none, preferences := none,
                created_at := 0, updated_at := 0 }],
    events := [], nextUserId := 3, nextEventId := 1, now := 4 }

/-- C6 witness: invariant preservation applied at a concrete two-user
state for all four operations. -/
theorem unique_email_invariant_witness :
    uniqueEmails (createOrUpdateUser stC6 (some "a6@x.y") (some "N")
      none none none none).1 ∧
    uniqueEmails (register stC6 (some "c6@x.y") none).1 ∧
    uniqueEmails (getUser stC6 "1").1 ∧
    uniqueEmails (login stC6 (some "b6@x.y")).1 := by
  have hu : uniqueEmails stC6 := by
    unfold uniqueEmails stC6
    simp [List.pairwise_cons]
  have h := unique_email_invariant stC6 hu
  exact ⟨h.1 (some "a6@x.y") (some "N") none none none none,
    h.2.1 (some "c6@x.y") none, h.2.2.1 "1", h.2.2.2 (some "b6@x.y")⟩

/-- States for the C5 race: the lookup of the losing request ran against
the empty table, then the winning request's insert for the same email
committed before the losing insert executed. -/
def stRaceBefore : DBState :=
  { users := [], events := [], nextUserId := 1, nextEventId := 1, now := 0 }

def stRaceAfter : DBState :=
  { users := [{ id := 1, email := "race@x.y", name := none, country := none,
                city := none, age := none, preferences := none,
                created_at := 0, updated_at := 0 }],
    events := [], nextUserId := 2, nextEventId := 1, now := 0 }

/-- C5 counterexample: in the lookup-then-insert race, the duplicate-key
failure of the upsert's INSERT surfaces as a 500 response (the catch-all
StorageError mapping), not as the claimed Conflict 409. -/
theorem upsert_race_conflict_cex :
    (createOrUpdateUserAt stRaceBefore stRaceAfter (some "race@x.y")
      none none none none none).2.status = 500 ∧
    (createOrUpdateUserAt stRaceBefore stRaceAfter (some "race@x.y")
      none none none none none).2.status ≠ 409 :=
  ⟨rfl, by decide⟩

/-- C5 (amended): when the upsert's INSERT hits the uniqueness violation —
the lookup saw no row for the email but a concurrent insert committed
before the write — the controller's catch maps the failure to a 500
response carrying the duplicate-entry message in details; the write-time
state is unchanged and the process does not crash; the failure is not
mapped to Conflict (409). -/
theorem upsert_race_storage_error (st1 st2 : DBState) (email : String)
    (hne : email ≠ "") (n c ci : Option String) (a : Option Int)
    (p : Option Json) (hsel : selectUserByEmail st1 email = [])
    (hdup : st2.users.any (fun u => u.email = email) = true) :
    createOrUpdateUserAt st1 st2 (some email) n c ci a p =
      (st2, ⟨500, .err "Failed to upsert user"
        (some ("Duplicate entry " ++ email ++ " for key users.email"))⟩) ∧
    (createOrUpdateUserAt st1 st2 (some email) n c ci a p).2.status ≠ 409 := by
  have h1 : createOrUpdateUserAt st1 st2 (some email) n c ci a p =
      (st2, ⟨500, .err "Failed to upsert user"
        (some ("Duplicate entry " ++ email ++ " for key users.email"))⟩) := by
    unfold createOrUpdateUserAt
    rw [if_neg (by simp [strFalsy, hne])]
    simp only [Option.getD_some, hsel]
    unfold insertUser
    rw [if_pos hdup]
    rfl
  refine ⟨h1, ?_⟩
  rw [h1]
  show (500 : Nat) ≠ 409
  decide

/-- C5 witness: the amended contract applied at the concrete race. -/
theorem upsert_race_storage_error_witness :
    createOrUpdateUserAt stRaceBefore stRaceAfter (some "race@x.y")
      none none none none none =
      (stRaceAfter, ⟨500, .err "Failed to upsert user"
        (some "Duplicate entry race@x.y for key users.email")⟩) := by
  have h := upsert_race_storage_error stRaceBefore stRaceAfter "race@x.y"
    (by decide) none none none none none rfl rfl
  exact h.1

/-- Empty database state used by the C8 round-trip analysis. -/
def stC8 : DBState :=
  { users := [], events := [], nextUserId := 1, nextEventId := 1, now := 0 }

/-- The row the C8 counterexample upsert actually stores: preferences NULL. -/
def uC8row : User :=
  { id := 1, email := "p@q.r", name := none, country := none,
    city := none, age := none, preferences := none,
    created_at := 0, updated_at := 0 }

/-- C8 counterexample: the structured document `false` is JS-falsy, so the
upsert stores NULL for it, and the re-fetch returns null preferences — the
claimed round-trip for every structured document fails. -/
theorem preferences_roundtrip_cex :
    (getUser (createOrUpdateUser stC8 (some "p@q.r") none none none none
        (some (Json.bool false))).1 "1").2 = ⟨200, .userRow uC8row⟩ ∧
    uC8row.preferences ≠ some (Json.bool false) :=
  ⟨rfl, by simp [uC8row]⟩

/-- C8 (amended): for every JS-truthy document d — every object and array,
and every nonzero number, nonempty string and `true` — a User upserted
with preferences = d and then re-fetched by id returns preferences equal
to d; falsy documents (`false`, `0`, `""`, `null`) are stored as NULL
instead. -/
theorem preferences_roundtrip_truthy (st : DBState) (email : String)
    (hne : email ≠ "") (n c ci : Option String) (a : Option Int) (d : Json)
    (htr : d.truthy = true) (hids : uniqueIds st) (hbound : idsBounded st)
    (pp : String) :
    (∀ u rest, selectUserByEmail st email = u :: rest →
      jsParseInt pp = some u.id →
      (getUser (createOrUpdateUser st (some email) n c ci a (some d)).1 pp).2 =
        ⟨200, .userRow (replacedUser st u n c ci a (some d))⟩ ∧
      (replacedUser st u n c ci a (some d)).preferences = some d) ∧
    (selectUserByEmail st email = [] → jsParseInt pp = some st.nextUserId →
      (getUser (createOrUpdateUser st (some email) n c ci a (some d)).1 pp).2 =
        ⟨200, .userRow (insertedUser st email n c ci a (some d))⟩ ∧
      (insertedUser st email n c ci a (some d)).preferences = some d) := by
  have hdoc : docOrNull (some d) = some d := by simp [docOrNull, htr]
  constructor
  · intro u rest hsel hp
    have hmem : u ∈ st.users := by
      have hu2 : u ∈ selectUserByEmail st email := by
        rw [hsel]; exact List.mem_cons_self u rest
      exact (List.mem_filter.mp hu2).1
    have hstate := upsert_found_state st email hne n c ci a (some d) hsel
    have hsel2 := selectUserById_update st hids hmem n c ci a (some d)
    constructor
    · rw [hstate]
      unfold getUser
      simp only [hp, hsel2]
    · simp [replacedUser, hdoc]
  · intro hsel hp
    have hstate := upsert_notfound_state st email hne n c ci a (some d) hsel
    constructor
    · rw [hstate]
      unfold getUser
      have hfresh : selectUserById
          { st with users := st.users ++ [insertedUser st email n c ci a (some d)],
                    nextUserId := st.nextUserId + 1 } st.nextUserId =
          [insertedUser st email n c ci a (some d)] := by
        unfold selectUserById
        exact filter_append_fresh st.users st.nextUserId hbound _ rfl
      simp only [hp, hfresh]
    · simp [insertedUser, hdoc]

/-- The spec's example document for the C8 witness. -/
def prefC8 : Json := .obj [("style", .str "casual")]

/-- C8 witness: upserting preferences = the example object into the empty
store and re-fetching by id returns an equal document. -/
theorem preferences_roundtrip_truthy_witness :
    (getUser (createOrUpdateUser stC8 (some "w8@x.y") none none none none
        (some prefC8)).1 "1").2 =
      ⟨200, .userRow (insertedUser stC8 "w8@x.y" none none none none
        (some prefC8))⟩ ∧
    (insertedUser stC8 "w8@x.y" none none none none (some prefC8)).preferences
      = some prefC8 := by
  have hids : uniqueIds stC8 := List.Pairwise.nil
  have hbound : idsBounded stC8 := by
    intro u hu
    simp [stC8] at hu
  exact (preferences_roundtrip_truthy stC8 "w8@x.y" (by decide) none none
    none none prefC8 rfl hids hbound "1").2 rfl rfl

/-- One-user state (id 3) for the C3 analysis. -/
def uC3 : User :=
  { id := 3, email := "c3@x.y", name := none, country := none, city := none,
    age := none, preferences := none, created_at := 0, updated_at := 0 }

def stC3 : DBState :=
  { users := [uC3], events := [], nextUserId := 4, nextEventId := 1, now := 9 }

/-- C3 counterexample: "3.5" is a non-integer userId parameter, yet POST
/api/behavior/3.5 with a valid event_type does not fail 400 — parseInt
reads the prefix 3, user 3 exists, and a behavior-event row is written
with status 201. -/
theorem logEvent_noninteger_param_cex :
    isIntegerString "3.5" = false ∧
    (logEvent stC3 "3.5" (some "click") none).2.status = 201 ∧
    (logEvent stC3 "3.5" (some "click") none).1.events =
      [{ id := 1, user_id := 3, event_type := "click",
         event_properties := none, occurred_at := 9 }] ∧
    (201 : Nat) ≠ 400 :=
  ⟨rfl, rfl, rfl, by decide⟩

/-- C3 (amended): the append fails with InvalidInput (400) writing nothing
when parseInt(userId) is NaN (no leading integer; parameters such as
"3.5" parse to their integer prefix and proceed) or when event_type is
missing or empty; when the parsed userId names no existing User the
foreign-key violation is caught and surfaces as a 500 with the driver
message, and the state is unchanged — no row is written. -/
theorem logEvent_error_contract (st : DBState) (p : String) (et : Option String)
    (props : Option Json) :
    (jsParseInt p = none →
      logEvent st p et props = (st, ⟨400, .err "Invalid user id" none⟩)) ∧
    (∀ uid, jsParseInt p = some uid → strFalsy et = true →
      logEvent st p et props = (st, ⟨400, .err "event_type is required" none⟩)) ∧
    (∀ uid, jsParseInt p = some uid → strFalsy et = false →
      (¬∃ u ∈ st.users, u.id = uid) →
      logEvent st p et props = (st, ⟨500, .err "Failed to log event"
        (some "Cannot add or update a child row: a foreign key constraint fails (fk_behavior_user)")⟩)) := by
  refine ⟨?_, ?_, ?_⟩
  · intro hp
    unfold logEvent
    simp only [hp]
  · intro uid hp hf
    unfold logEvent
    simp only [hp]
    rw [if_pos (by simp [hf])]
  · intro uid hp hf hno
    have hany : st.users.any (fun u => u.id = uid) = false := by
      rw [List.any_eq_false]
      intro u hu
      simp only [decide_eq_true_eq]
      intro he
      exact hno ⟨u, hu, he⟩
    unfold logEvent
    simp only [hp]
    rw [if_neg (by simp [hf])]
    unfold insertEvent
    rw [if_neg (by simp [hany])]
    rfl

/-- C3 witness: the amended contract applied at a concrete state, hitting
the NaN-400, missing-event_type-400 and missing-user-500 branches. -/
theorem logEvent_error_contract_witness :
    logEvent stC3 "abc" (some "click") none =
      (stC3, ⟨400, .err "Invalid user id" none⟩) ∧
    logEvent stC3 "7" none none =
      (stC3, ⟨400, .err "event_type is required" none⟩) ∧
    logEvent stC3 "7" (some "click") none =
      (stC3, ⟨500, .err "Failed to log event"
        (some "Cannot add or update a child row: a foreign key constraint fails (fk_behavior_user)")⟩) :=
  ⟨(logEvent_error_contract stC3 "abc" (some "click") none).1 rfl,
   (logEvent_error_contract stC3 "7" none none).2.1 7 rfl rfl,
   (logEvent_error_contract stC3 "7" (some "click") none).2.2 7 rfl rfl
     (by decide)⟩

theorem selectEvents_of_base_nil (st : DBState) (uid : Int)
    (h : st.events.filter (fun e => e.user_id = uid) = []) (f : Option String)
    (l : Nat) : selectEvents st uid f l = [] := by
  simp only [selectEvents, h]
  rcases f with _ | t <;> simp

/-- C10: GET /api/behavior/:userId for an integer userId that names no
existing User does not fail with NotFound — it returns 200 with the empty
event list, indistinguishable from an existing user with no events. -/
theorem list_unknown_user_empty (st : DBState) (p : String) (uid : Int)
    (hp : jsParseInt p = some uid) (hfk : fkOk st)
    (hno : ¬∃ u ∈ st.users, u.id = uid) (et : Option String)
    (lim : Option Nat) :
    getEvents st p et lim = (st, ⟨200, .events []⟩) := by
  have hbase : st.events.filter (fun e => e.user_id = uid) = [] := by
    rw [List.filter_eq_nil_iff]
    intro e he
    simp only [decide_eq_true_eq]
    intro heq
    rcases hfk e he with ⟨u, hu, hid⟩
    exact hno ⟨u, hu, by rw [hid, heq]⟩
  unfold getEvents
  simp only [hp, selectEvents_of_base_nil st uid hbase]

/-- State for the C10 witness: user 1 exists and has an event; user 2
does not exist. -/
def stC10 : DBState :=
  { users := [{ id := 1, email := "c10@x.y", name := none, country := none,
                city := none, age := none, preferences := none,
                created_at := 0, updated_at := 0 }],
    events := [{ id := 1, user_id := 1, event_type := "click",
                 event_properties := none, occurred_at := 1 }],
    nextUserId := 2, nextEventId := 2, now := 2 }

/-- C10 witness: listing events of the non-existent user 2 returns 200
with the empty list. -/
theorem list_unknown_user_empty_witness :
    getEvents stC10 "2" none none = (stC10, ⟨200, .events []⟩) :=
  list_unknown_user_empty stC10 "2" 2 rfl (by unfold fkOk; decide)
    (by decide) none none

/-- C2: GET /api/recommendations/:userId for an integer userId returns 200
with an object carrying the userId, a behaviorSummary that groups that
user's events by event_type with their counts ordered by count
descending, and an always-empty recommendations list; it never 404s, and
a non-existent user yields an empty summary. -/
theorem summarize_contract (st : DBState) (p : String) (uid : Int)
    (hp : jsParseInt p = some uid) (hfk : fkOk st) :
    (getRecommendations st p).2.status = 200 ∧
    (getRecommendations st p).2.body = .recs uid (summarizeQuery st uid) [] ∧
    List.Sorted countDesc (summarizeQuery st uid) ∧
    (∀ tc ∈ summarizeQuery st uid,
      tc.2 = ((st.events.filter (fun e => e.user_id = uid)).filter
        (fun e => e.event_type = tc.1)).length) ∧
    (∀ t, t ∈ (summarizeQuery st uid).map Prod.fst ↔
      ∃ e ∈ st.events, e.user_id = uid ∧ e.event_type = t) ∧
    ((¬∃ u ∈ st.users, u.id = uid) → summarizeQuery st uid = []) := by
  have hresp : getRecommendations st p =
      (st, ⟨200, .recs uid (summarizeQuery st uid) []⟩) := by
    unfold getRecommendations
    simp only [hp]
  refine ⟨by rw [hresp], by rw [hresp], ?_, ?_, ?_, ?_⟩
  · unfold summarizeQuery
    exact List.sorted_insertionSort countDesc _
  · intro tc htc
    simp only [summarizeQuery, List.mem_insertionSort] at htc
    rcases List.mem_map.mp htc with ⟨t, ht, rfl⟩
    rfl
  · intro t
    constructor
    · intro ht
      rcases List.mem_map.mp ht with ⟨tc, htc, rfl⟩
      simp only [summarizeQuery, List.mem_insertionSort] at htc
      rcases List.mem_map.mp htc with ⟨t', ht', rfl⟩
      rw [List.mem_dedup] at ht'
      rcases List.mem_map.mp ht' with ⟨e, he, rfl⟩
      rcases List.mem_filter.mp he with ⟨hem, heu⟩
      exact ⟨e, hem, by simpa using heu, rfl⟩
    · rintro ⟨e, he, heu, het⟩
      refine List.mem_map.mpr
        ⟨(t, ((st.events.filter (fun e2 => e2.user_id = uid)).filter
          (fun e2 => e2.event_type = t)).length), ?_, rfl⟩
      simp only [summarizeQuery, List.mem_insertionSort]
      refine List.mem_map.mpr ⟨t, ?_, rfl⟩
      rw [List.mem_dedup]
      refine List.mem_map.mpr ⟨e, ?_, het⟩
      exact List.mem_filter.mpr ⟨he, by simpa using heu⟩
  · intro hno
    have hbase : st.events.filter (fun e => e.user_id = uid) = [] := by
      rw [List.filter_eq_nil_iff]
      intro e he
      simp only [decide_eq_true_eq]
      intro heq
      rcases hfk e he with ⟨u, hu, hid⟩
      exact hno ⟨u, hu, by rw [hid, heq]⟩
    simp only [summarizeQuery, hbase]
    rfl

/-- State for the C2 witness: user 1 with events click, click, view. -/
def stC2 : DBState :=
  { users := [{ id := 1, email := "c2@x.y", name := none, country := none,
                city := none, age := none, preferences := none,
                created_at := 0, updated_at := 0 }],
    events := [{ id := 1, user_id := 1, event_type := "click",
                 event_properties := none, occurred_at := 1 },
               { id := 2, user_id := 1, event_type := "click",
                 event_properties := none, occurred_at := 2 },
               { id := 3, user_id := 1, event_type := "view",
                 event_properties := none, occurred_at := 3 }],
    nextUserId := 2, nextEventId := 4, now := 5 }

/-- C2 witness: the contract at the spec's example — events click, click,
view give behaviorSummary [(click,2),(view,1)], count descending, with an
empty recommendations list. -/
theorem summarize_contract_witness :
    (getRecommendations stC2 "1").2.status = 200 ∧
    (getRecommendations stC2 "1").2.body =
      .recs 1 (summarizeQuery stC2 1) [] ∧
    summarizeQuery stC2 1 = [("click", 2), ("view", 1)] := by
  have h := summarize_contract stC2 "1" 1 rfl (by unfold fkOk; decide)
  exact ⟨h.1, h.2.1, rfl⟩

/-- The behavior_events row written by a successful append. -/
def appendedEvent (st : DBState) (uid : Int) (t : String)
    (props : Option Json) : BehaviorEvent :=
  { id := st.nextEventId, user_id := uid, event_type := t,
    event_properties := docOrNull props, occurred_at := st.now }

/-- C4: GET /api/behavior/:userId for an integer userId returns the user's
events newest first (descending occurred_at), returns at most N elements
when limit=N (default 100), restricts the result to the given event_type
when a nonempty one is supplied, and immediately after an append for that
userId the appended event is the first element of the default listing. -/
theorem list_events_contract (st : DBState) (p : String) (uid : Int)
    (hp : jsParseInt p = some uid) :
    (∀ et lim, (getEvents st p et lim).2 = ⟨200, .events
      (selectEvents st uid (if strFalsy et then none else et) (lim.getD 100))⟩) ∧
    (∀ f l, List.Sorted newerFirst (selectEvents st uid f l)) ∧
    (∀ f l, (selectEvents st uid f l).length ≤ l) ∧
    (∀ t l e, e ∈ selectEvents st uid (some t) l →
      e.user_id = uid ∧ e.event_type = t) ∧
    (∀ l e, e ∈ selectEvents st uid none l → e.user_id = uid) ∧
    (timesPast st → (∃ u ∈ st.users, u.id = uid) → ∀ t props, t ≠ "" →
      (logEvent st p (some t) props).2 = ⟨201, .ack⟩ ∧
      ∃ rest, (getEvents (logEvent st p (some t) props).1 p none none).2 =
        ⟨200, .events (appendedEvent st uid t props :: rest)⟩) := by
  refine ⟨?_, ?_, ?_, ?_, ?_, ?_⟩
  · intro et lim
    unfold getEvents
    simp only [hp]
  · intro f l
    unfold selectEvents
    exact List.Pairwise.sublist (List.take_sublist _ _)
      (List.sorted_insertionSort newerFirst _)
  · intro f l
    unfold selectEvents
    rw [List.length_take]
    exact min_le_left _ _
  · intro t l e he
    simp only [selectEvents] at he
    have he2 := List.take_subset _ _ he
    rw [List.mem_insertionSort] at he2
    rcases List.mem_filter.mp he2 with ⟨hbase, htype⟩
    rcases List.mem_filter.mp hbase with ⟨_, huid⟩
    exact ⟨by simpa using huid, by simpa using htype⟩
  · intro l e he
    simp only [selectEvents] at he
    have he2 := List.take_subset _ _ he
    rw [List.mem_insertionSort] at he2
    rcases List.mem_filter.mp he2 with ⟨_, huid⟩
    simpa using huid
  · intro htime hex t props ht
    have hany : st.users.any (fun u => u.id = uid) = true := by
      rcases hex with ⟨u, hu, hid⟩
      exact List.any_eq_true.mpr ⟨u, hu, by simpa using hid⟩
    have hlog : logEvent st p (some t) props =
        ({ st with events := st.events ++ [appendedEvent st uid t props],
                   nextEventId := st.nextEventId + 1 }, ⟨201, .ack⟩) := by
      unfold logEvent
      simp only [hp]
      rw [if_neg (by simp [strFalsy, ht])]
      unfold insertEvent
      rw [if_pos hany]
      rfl
    refine ⟨by rw [hlog], ?_⟩
    have hL : (st.events ++ [appendedEvent st uid t props]).filter
        (fun e => e.user_id = uid) =
        st.events.filter (fun e => e.user_id = uid) ++
          [appendedEvent st uid t props] := by
      rw [List.filter_append]
      simp [appendedEvent]
    have hmemS : appendedEvent st uid t props ∈ List.insertionSort newerFirst
        (st.events.filter (fun e => e.user_id = uid) ++
          [appendedEvent st uid t props]) :=
      (List.mem_insertionSort newerFirst).mpr
        (List.mem_append_right _ (List.mem_cons_self _ _))
    rcases hS : List.insertionSort newerFirst
        (st.events.filter (fun e => e.user_id = uid) ++
          [appendedEvent st uid t props]) with _ | ⟨h0, tl⟩
    · rw [hS] at hmemS
      cases hmemS
    · have hsorted := List.sorted_insertionSort newerFirst
        (st.events.filter (fun e => e.user_id = uid) ++
          [appendedEvent st uid t props])
      rw [hS] at hsorted
      have hrel := List.rel_of_sorted_cons hsorted
      have hh0 : h0 = appendedEvent st uid t props := by
        by_contra hne0
        have hh0S : h0 ∈ List.insertionSort newerFirst
            (st.events.filter (fun e => e.user_id = uid) ++
              [appendedEvent st uid t props]) := by
          rw [hS]
          exact List.mem_cons_self _ _
        have hh0mem := (List.mem_insertionSort newerFirst).mp hh0S
        rcases List.mem_append.mp hh0mem with hold | hnew2
        · have h0ev : h0 ∈ st.events := (List.mem_filter.mp hold).1
          have h0lt : h0.occurred_at < st.now := htime h0 h0ev
          rw [hS] at hmemS
          rcases List.mem_cons.mp hmemS with heq | hmemtl
          · exact hne0 heq.symm
          · have hle : (appendedEvent st uid t props).occurred_at ≤
                h0.occurred_at := hrel _ hmemtl
            have hle2 : st.now ≤ h0.occurred_at := hle
            omega
        · exact hne0 (by simpa using hnew2)
      subst hh0
      refine ⟨tl.take 99, ?_⟩
      rw [hlog]
      unfold getEvents
      have hsel2 : selectEvents
          { st with events := st.events ++ [appendedEvent st uid t props],
                    nextEventId := st.nextEventId + 1 } uid none 100 =
          appendedEvent st uid t props :: tl.take 99 := by
        simp only [selectEvents]
        rw [hL, hS]
        show List.take (99 + 1) (appendedEvent st uid t props :: tl) = _
        rw [List.take_succ_cons]
      simp [hp, hsel2]

/-- State for the C4 witness: user 1 with one old event, clock ahead of
every stored timestamp. -/
def stC4 : DBState :=
  { users := [{ id := 1, email := "c4@x.y", name := none, country := none,
                city := none, age := none, preferences := none,
                created_at := 0, updated_at := 0 }],
    events := [{ id := 1, user_id := 1, event_type := "view",
                 event_properties := none, occurred_at := 1 }],
    nextUserId := 2, nextEventId := 2, now := 5 }

/-- C4 witness: the listing contract applied at a concrete state,
including append-then-list returning the appended event first. -/
theorem list_events_contract_witness :
    (getEvents stC4 "1" none (some 2)).2 = ⟨200, .events
      (selectEvents stC4 1 (if strFalsy none then none else none)
        ((some 2).getD 100))⟩ ∧
    List.Sorted newerFirst (selectEvents stC4 1 none 100) ∧
    (selectEvents stC4 1 none 2).length ≤ 2 ∧
    (logEvent stC4 "1" (some "buy") none).2 = ⟨201, .ack⟩ ∧
    (∃ rest, (getEvents (logEvent stC4 "1" (some "buy") none).1 "1"
        none none).2 =
      ⟨200, .events (appendedEvent stC4 1 "buy" none :: rest)⟩) := by
  have h := list_events_contract stC4 "1" 1 rfl
  have h6 := h.2.2.2.2.2 (by unfold timesPast; decide) (by decide) "buy" none
    (by decide)
  exact ⟨h.1 none (some 2), h.2.1 none 100, h.2.2.1 none 2, h6.1, h6.2⟩
